import Mathlib

/-!
Verification of the espipe Elasticsearch bulk-output engine
(src/output/elasticsearch.rs, src/output/elasticsearch/bulk_response.rs,
src/output/action.rs) against its natural-language specification.

The Rust code is shallowly embedded: serde_json values become the `Json`
inductive, fallible functions return `Except String`, the async engine state
(queue of pending documents, set of spawned bulk tasks) becomes an explicit
state record, and one bulk task's network life is driven by an explicit list
of per-attempt HTTP outcomes.
-/

set_option maxRecDepth 4096

/-- Shallow embedding of `serde_json::Value`. Numbers are modelled as
integers (no claim here depends on fractional values); objects are
association lists in insertion order with the convention that keys are
unique, which is how maps parsed by serde_json behave. -/
inductive Json where
  | null
  | bool (b : Bool)
  | num (n : Int)
  | str (s : String)
  | arr (elems : List Json)
  | obj (fields : List (String × Json))

/-- Lookup of a key in a JSON object's field list (first occurrence),
modelling `serde_json::Map` lookup on unique-keyed maps. -/
def jsonLookup (k : String) : List (String × Json) → Option Json
  | [] => none
  | (k', v) :: rest => if k' = k then some v else jsonLookup k rest

/-- Removal of a key from a JSON object's field list, returning the removed
value and the remaining fields; models `serde_json::Map::remove`, which
returns the value for the key and leaves the other entries in place. -/
def mapRemove (k : String) : List (String × Json) → Option (Json × List (String × Json))
  | [] => none
  | (k', v) :: rest =>
    if k' = k then some (v, rest)
    else
      match mapRemove k rest with
      | some (x, rest') => some (x, (k', v) :: rest')
      | none => none

/-- The bulk action mode from src/output/action.rs: `Create | Index | Update`. -/
inductive BulkAction where
  | Create
  | Index
  | Update
deriving DecidableEq

/-- One wire-level bulk operation: an action-header line followed by a
source line. Models the payload the `elasticsearch` crate's `BulkOperation`
serializes, as exercised by the repository's own `bulk_operation_lines`
test helper: `create`/`index` carry an empty header object and the document
verbatim; `update` carries the identifier in the header and the given
payload as the source line. -/
structure BulkOperation where
  header : Json
  source : Json

/-- Models `BulkOperation::create(doc)`. -/
def BulkOperation.create (doc : Json) : BulkOperation :=
  ⟨Json.obj [("create", Json.obj [])], doc⟩

/-- Models `BulkOperation::index(doc)`. -/
def BulkOperation.index (doc : Json) : BulkOperation :=
  ⟨Json.obj [("index", Json.obj [])], doc⟩

/-- Models `BulkOperation::update(id, payload)`: the header names the
update action and carries the document identifier. -/
def BulkOperation.update (id : String) (payload : Json) : BulkOperation :=
  ⟨Json.obj [("update", Json.obj [("_id", Json.str id)])], payload⟩

/-- Embeds `extract_update_id` (src/output/elasticsearch.rs:135-151):
a document must be a JSON object; its `"_id"` entry is removed and must be
a string; the identifier and the remaining object are returned. -/
def extract_update_id : Json → Except String (String × Json)
  | Json.obj map =>
    match mapRemove "_id" map with
    | none => Except.error "Update action requires an _id field on each document"
    | some (idValue, rest) =>
      match idValue with
      | Json.str id => Except.ok (id, Json.obj rest)
      | _ => Except.error "Update action requires _id to be a string"
  | _ => Except.error "Update action requires each document to be a JSON object"

/-- Embeds `update_operation_from_doc` (src/output/elasticsearch.rs:129-133):
extract the identifier, wrap the remaining fields under a "doc" key, and
build an update operation. -/
def update_operation_from_doc (doc : Json) : Except String BulkOperation :=
  match extract_update_id doc with
  | Except.ok (id, rest) => Except.ok (BulkOperation.update id (Json.obj [("doc", rest)]))
  | Except.error e => Except.error e

/-- Per-document encoding step of `build_bulk_operations`: the match on the
action mode inside the closure at src/output/elasticsearch.rs:121-125. -/
def encode_doc (action : BulkAction) (doc : Json) : Except String BulkOperation :=
  match action with
  | BulkAction.Create => Except.ok (BulkOperation.create doc)
  | BulkAction.Index => Except.ok (BulkOperation.index doc)
  | BulkAction.Update => update_operation_from_doc doc

/-- Embeds `build_bulk_operations` (src/output/elasticsearch.rs:116-127):
`docs.into_iter().map(...).collect::<Result<Vec<_>>>()`, i.e. encode each
document in order and stop at the first failure, so a single bad document
aborts the whole batch and no operation list is produced. -/
def build_bulk_operations (action : BulkAction) : List Json → Except String (List BulkOperation)
  | [] => Except.ok []
  | d :: ds =>
    match encode_doc action d with
    | Except.ok op =>
      match build_bulk_operations action ds with
      | Except.ok ops => Except.ok (op :: ops)
      | Except.error e => Except.error e
    | Except.error e => Except.error e

namespace bulk_response

/-- Embeds the private `BulkResponseItem` struct of
src/output/elasticsearch/bulk_response.rs:114-120: the target index, the
document id, the HTTP-like per-item status, and an optional error. The
nested error is modelled by its `caused_by` fields, the only ones the
source deserializes. -/
structure BulkResponseItem where
  _index : String
  _id : String
  status : Nat
  error : Option (String × String)
deriving DecidableEq

/-- Embeds the private untagged `BulkAction` enum of
src/output/elasticsearch/bulk_response.rs:80-85. It has exactly two
variants: an item keyed "create" and an item keyed "index"; the source
declares no variant for any other item key. -/
inductive BulkAction where
  | Create (create : BulkResponseItem)
  | Index (index : BulkResponseItem)
deriving DecidableEq

/-- Embeds `BulkAction::is_success`
(src/output/elasticsearch/bulk_response.rs:87-93): a create item succeeds
exactly on status 201, an index item on status 200 or 201. -/
def BulkAction.is_success : BulkAction → Bool
  | BulkAction.Create create => create.status == 201
  | BulkAction.Index index => index.status == 200 || index.status == 201

/-- Embeds the untagged `ErrorType` enum
(src/output/elasticsearch/bulk_response.rs:12-17): either an object with a
`type` field or a plain string. -/
inductive ErrorType where
  | Object (type : String)
  | String (s : String)
deriving DecidableEq

/-- Embeds the `BulkResponse` struct
(src/output/elasticsearch/bulk_response.rs:4-10): optional top-level error
cause, optional `errors` flag, optional list of per-item results. -/
structure BulkResponse where
  error : Option ErrorType
  errors : Option Bool
  items : Option (List BulkAction)
deriving DecidableEq

/-- Embeds `BulkResponse::has_errors`
(src/output/elasticsearch/bulk_response.rs:53-58). -/
def BulkResponse.has_errors (r : BulkResponse) : Bool :=
  match r.errors with
  | some true => true
  | _ => false

/-- Embeds `BulkResponse::error_cause`
(src/output/elasticsearch/bulk_response.rs:29-34); the Display instance of
`ErrorType` prints the object's `type` field or the plain string. -/
def BulkResponse.error_cause (r : BulkResponse) : String :=
  match r.error with
  | some (ErrorType.Object t) => t
  | some (ErrorType.String s) => s
  | none => "unknown"

/-- Embeds `BulkResponse::success_count`
(src/output/elasticsearch/bulk_response.rs:60-65): the number of items for
which `is_success` holds, or 0 when there is no items field. -/
def BulkResponse.success_count (r : BulkResponse) : Nat :=
  match r.items with
  | some items => (items.filter (fun item => item.is_success)).length
  | none => 0

/-- Models serde deserialization of `BulkResponseItem` from a JSON value:
`_index` and `_id` must be present strings, `status` a number fitting u16,
and `error` is optional; unknown fields are ignored (the struct has no
deny-unknown-fields attribute). The nested error requires a `caused_by`
object with string `type` and `reason` fields. -/
def parseBulkResponseItem (j : Json) : Option BulkResponseItem :=
  match j with
  | Json.obj m =>
    match jsonLookup "_index" m, jsonLookup "_id" m, jsonLookup "status" m with
    | some (Json.str idx), some (Json.str id), some (Json.num st) =>
      if 0 ≤ st ∧ st < 65536 then
        match jsonLookup "error" m with
        | none => some ⟨idx, id, st.toNat, none⟩
        | some Json.null => some ⟨idx, id, st.toNat, none⟩
        | some (Json.obj em) =>
          match jsonLookup "caused_by" em with
          | some (Json.obj cm) =>
            match jsonLookup "type" cm, jsonLookup "reason" cm with
            | some (Json.str t), some (Json.str rsn) => some ⟨idx, id, st.toNat, some (t, rsn)⟩
            | _, _ => none
          | _ => none
        | some _ => none
      else none
    | _, _, _ => none
  | _ => none

/-- Models serde deserialization of the untagged `BulkAction` enum: try the
`Create` variant (a JSON object whose "create" field parses as an item),
then the `Index` variant; any other shape fails to deserialize. -/
def parseBulkAction (j : Json) : Option BulkAction :=
  match j with
  | Json.obj m =>
    match (jsonLookup "create" m).bind parseBulkResponseItem with
    | some item => some (BulkAction.Create item)
    | none =>
      match (jsonLookup "index" m).bind parseBulkResponseItem with
      | some item => some (BulkAction.Index item)
      | none => none
  | _ => none

/-- Models serde deserialization of the untagged `ErrorType` enum: first an
object carrying a string `type` field, then a plain string. -/
def parseErrorType (j : Json) : Option ErrorType :=
  match j with
  | Json.obj m =>
    match jsonLookup "type" m with
    | some (Json.str t) => some (ErrorType.Object t)
    | _ => none
  | Json.str s => some (ErrorType.String s)
  | _ => none

/-- Models serde deserialization of a `Vec<BulkAction>`: the items are
parsed in order and a single undeserializable element fails the whole
vector. -/
def parseItems : List Json → Option (List BulkAction)
  | [] => some []
  | j :: rest =>
    match parseBulkAction j, parseItems rest with
    | some a, some as => some (a :: as)
    | _, _ => none

/-- Models serde deserialization of `BulkResponse` from a JSON value, as
performed by `response.json::<BulkResponse>()` in the flush task. Each
`Option` field is `none` when absent or null; when the field is present,
its value must deserialize, and a single undeserializable item in the
`items` array fails the whole response. -/
def parseBulkResponse (j : Json) : Option BulkResponse :=
  match j with
  | Json.obj m =>
    let errorField : Option (Option ErrorType) :=
      match jsonLookup "error" m with
      | none => some none
      | some Json.null => some none
      | some v => (parseErrorType v).map some
    let errorsField : Option (Option Bool) :=
      match jsonLookup "errors" m with
      | none => some none
      | some Json.null => some none
      | some (Json.bool b) => some (some b)
      | some _ => none
    let itemsField : Option (Option (List BulkAction)) :=
      match jsonLookup "items" m with
      | none => some none
      | some Json.null => some none
      | some (Json.arr xs) => (parseItems xs).map some
      | some _ => none
    match errorField, errorsField, itemsField with
    | some e, some es, some its => some ⟨e, es, its⟩
    | _, _, _ => none
  | _ => none

end bulk_response

/-- The batch-size threshold: `static BATCH_SIZE: usize = 5_000`
(src/output/elasticsearch.rs:14). -/
def BATCH_SIZE : Nat := 5000

/-- State of `ElasticsearchOutput` (src/output/elasticsearch.rs:16-24).
The HTTP client handle is not part of the state here; the network is
modelled by the per-task attempt outcomes fed to `close`. The `futures`
field records, for each spawned bulk task in spawn order, the batch
snapshot that task owns (`docs` in `flush`). -/
structure ElasticsearchOutput where
  hostname : String
  index : String
  action : BulkAction
  queue : List Json
  futures : List (List Json)

/-- Models `ElasticsearchOutput::try_new`'s engine-state initialization:
empty queue, no outstanding tasks (src/output/elasticsearch.rs:27-42). -/
def initOutput (hostname index : String) (action : BulkAction) : ElasticsearchOutput :=
  ⟨hostname, index, action, [], []⟩

/-- Embeds the synchronous part of `ElasticsearchOutput::flush`
(src/output/elasticsearch.rs:44-64): compute the batch size as the smaller
of the queue length and `BATCH_SIZE`, drain that many documents from the
front of the queue, and spawn a task owning the drained snapshot. `flush`
itself always returns `Ok(())`; the spawned task's network life is
modelled separately by `runBulkTask`. -/
def ElasticsearchOutput.flush (st : ElasticsearchOutput) : ElasticsearchOutput :=
  let batch_size := if st.queue.length ≥ BATCH_SIZE then BATCH_SIZE else st.queue.length
  { st with
    queue := st.queue.drop batch_size,
    futures := st.futures ++ [st.queue.take batch_size] }

/-- Embeds `Sender::send for ElasticsearchOutput`
(src/output/elasticsearch.rs:206-213): push the document onto the queue,
flush when the queue has reached `BATCH_SIZE`, and return `Ok(0)`. The
first component is the returned count. -/
def ElasticsearchOutput.send (st : ElasticsearchOutput) (value : Json) : Nat × ElasticsearchOutput :=
  let pushed := { st with queue := st.queue ++ [value] }
  if pushed.queue.length ≥ BATCH_SIZE then (0, pushed.flush) else (0, pushed)

/-- Submits a sequence of documents one at a time through `send`. -/
def sendAll : List Json → ElasticsearchOutput → ElasticsearchOutput
  | [], st => st
  | d :: ds, st => sendAll ds (st.send d).2

/-- The batches owned by the tasks that `close` awaits: the tasks spawned
during submissions plus the one spawned by `close`'s unconditional final
flush (src/output/elasticsearch.rs:215-217). -/
def closeBatches (st : ElasticsearchOutput) : List (List Json) :=
  st.flush.futures

/-- Outcome of one HTTP exchange of a bulk task: either the send or the
body decode failed (either `?` at src/output/elasticsearch.rs:73-79 makes
the task return `Err`), or a status code paired with the decoded
`BulkResponse` body. -/
inductive AttemptOutcome where
  | failed
  | response (status_code : Nat) (body : bulk_response.BulkResponse)

/-- Final result of one spawned bulk task, as seen by `close`: `Ok(count)`
or `Err(_)`. -/
inductive TaskOutcome where
  | ok (count : Nat)
  | err
deriving DecidableEq

/-- The backoff update in the 429 branch
(src/output/elasticsearch.rs:95-97): while below the 30-second cap, double
and cap at 30; at the cap, leave unchanged. Durations are in seconds. -/
def stepBackoff (backoff : Nat) : Nat :=
  if backoff < 30 then min (backoff * 2) 30 else backoff

/-- Embeds the retry loop of the spawned bulk task
(src/output/elasticsearch.rs:69-110), given the outcome of each successive
HTTP exchange and the current backoff. Returns `none` when the supplied
outcomes are exhausted without the loop terminating (the task is still
retrying), otherwise the task's result, the number of HTTP exchanges
performed, and the list of backoff durations slept, in order. Status 400
terminates with `Ok(0)`; status 429 sleeps the current backoff, steps it,
and retries; any other status terminates with `Ok(success_count)`. -/
def bulkTaskLoop : List AttemptOutcome → Nat → Option (TaskOutcome × Nat × List Nat)
  | [], _ => none
  | AttemptOutcome.failed :: _, _ => some (TaskOutcome.err, 1, [])
  | AttemptOutcome.response status body :: rest, backoff =>
    if status = 400 then some (TaskOutcome.ok 0, 1, [])
    else if status = 429 then
      match bulkTaskLoop rest (stepBackoff backoff) with
      | some (out, calls, sleeps) => some (out, calls + 1, backoff :: sleeps)
      | none => none
    else some (TaskOutcome.ok body.success_count, 1, [])

/-- Embeds one whole spawned bulk task (src/output/elasticsearch.rs:64-111).
The loop re-encodes the batch on every iteration; since
`build_bulk_operations` is pure, it either fails on the first iteration
(the task returns `Err` having made no HTTP call) or succeeds identically
on every iteration, so the encoding is checked once here. The backoff
starts at 1 second and the attempt counter at 0 (incremented before each
exchange). -/
def runBulkTask (action : BulkAction) (docs : List Json) (outcomes : List AttemptOutcome) :
    Option (TaskOutcome × Nat × List Nat) :=
  match build_bulk_operations action docs with
  | Except.error _ => some (TaskOutcome.err, 0, [])
  | Except.ok _ => bulkTaskLoop outcomes 1

/-- Joins every spawned task in order, giving task `i` the attempt
outcomes `outcomes i`; `none` when some task never terminates (in which
case `close`'s `join_all` never returns). Models awaiting the
`FuturesUnordered` set: completion order does not affect the summed
result, so tasks are joined in spawn order. -/
def taskResults (action : BulkAction) :
    List (List Json) → (Nat → List AttemptOutcome) → Option (List TaskOutcome)
  | [], _ => some []
  | b :: bs, outcomes =>
    match (runBulkTask action b (outcomes 0)).map Prod.fst,
        taskResults action bs (fun i => outcomes (i + 1)) with
    | some o, some rest => some (o :: rest)
    | _, _ => none

/-- The `filter_map(|result| match result ...)` step of `close`: an `Ok`
count passes through, an `Err` is logged and dropped. -/
def taskOk : TaskOutcome → Option Nat
  | TaskOutcome.ok c => some c
  | TaskOutcome.err => none

/-- Embeds `Sender::close for ElasticsearchOutput`
(src/output/elasticsearch.rs:215-231): flush the remaining queue
unconditionally, await every outstanding task, keep the `Ok` counts, and
return their sum. -/
def ElasticsearchOutput.close (st : ElasticsearchOutput)
    (outcomes : Nat → List AttemptOutcome) : Option Nat :=
  let flushed := st.flush
  (taskResults flushed.action flushed.futures outcomes).map
    (fun results => (results.filterMap taskOk).sum)

/-- Spec-side predicate, from the claim's words: the document is a JSON
object carrying a string "_id" field. Its negation enumerates exactly the
three Update-mode encoding failures: not an object, no "_id" field, or a
non-string "_id". -/
def validUpdateDoc : Json → Bool
  | Json.obj m =>
    match mapRemove "_id" m with
    | some (Json.str _, _) => true
    | _ => false
  | _ => false

/-- Spec-side description, from the claim's words, of the one operation an
Update-mode encoding produces for a valid document: an action header
carrying the extracted identifier paired with a source line wrapping the
remaining fields under a "doc" key. On invalid documents (never reached
under the validity hypothesis) it yields a dummy operation. -/
def specUpdateOp (d : Json) : BulkOperation :=
  match d with
  | Json.obj m =>
    match mapRemove "_id" m with
    | some (Json.str id, rest) =>
      BulkOperation.update id (Json.obj [("doc", Json.obj rest)])
    | _ => BulkOperation.update "" Json.null
  | _ => BulkOperation.update "" Json.null

/-- Spec-side: greedy split of a list into chunks of exactly `n` leading
elements plus the final remainder of fewer than `n` elements. -/
def chunksRem (n : Nat) (l : List α) : List (List α) × List α :=
  if _h : 0 < n ∧ n ≤ l.length then
    let tail := chunksRem n (l.drop n)
    (l.take n :: tail.1, tail.2)
  else ([], l)
termination_by l.length
decreasing_by
  simp only [List.length_drop]
  omega

/-- Spec-side, from the claim's words: the success count a task reports to
`close` (a failed task contributes 0). -/
def contribution : TaskOutcome → Nat
  | TaskOutcome.ok c => c
  | TaskOutcome.err => 0

/-- Spec-side: an attempt outcome whose decoded body (if any) reports at
most `n` successes; a well-behaved store never reports more item
acceptances than the batch has documents. -/
def respBounded (n : Nat) : AttemptOutcome → Bool
  | AttemptOutcome.failed => true
  | AttemptOutcome.response _ body => decide (body.success_count ≤ n)

/-- A run of `n` consecutive 429 (throttled) responses, with arbitrary
decoded bodies. -/
def block429 (n : Nat) (bodies : Nat → bulk_response.BulkResponse) : List AttemptOutcome :=
  (List.range n).map (fun i => AttemptOutcome.response 429 (bodies i))

theorem chunksRem_of_lt {α : Type} (n : Nat) (l : List α) (h : l.length < n) :
    chunksRem n l = ([], l) := by
  rw [chunksRem]
  rw [dif_neg (by omega)]

theorem chunksRem_of_le {α : Type} (n : Nat) (l : List α) (h0 : 0 < n) (h : n ≤ l.length) :
    chunksRem n l =
      (l.take n :: (chunksRem n (l.drop n)).1, (chunksRem n (l.drop n)).2) := by
  rw [chunksRem]
  rw [dif_pos ⟨h0, h⟩]

theorem chunksRem_spec {α : Type} (n : Nat) (h0 : 0 < n) (l : List α) :
    (∀ b ∈ (chunksRem n l).1, b.length = n) ∧
    (chunksRem n l).2.length < n ∧
    (chunksRem n l).1.flatten ++ (chunksRem n l).2 = l := by
  by_cases h : n ≤ l.length
  · rw [chunksRem_of_le n l h0 h]
    obtain ⟨ih1, ih2, ih3⟩ := chunksRem_spec n h0 (l.drop n)
    refine ⟨?_, ih2, ?_⟩
    · intro b hb
      rcases List.mem_cons.mp hb with rfl | hb
      · simp only [List.length_take]
        omega
      · exact ih1 b hb
    · simp only [List.flatten_cons, List.append_assoc, ih3, List.take_append_drop]
  · rw [chunksRem_of_lt n l (by omega)]
    simp only [List.not_mem_nil, false_implies, implies_true, List.flatten_nil,
      List.nil_append, true_and, and_true]
    omega
termination_by l.length
decreasing_by
  simp only [List.length_drop]
  omega

theorem sendAll_eq (docs : List Json) (st : ElasticsearchOutput)
    (h : st.queue.length < BATCH_SIZE) :
    sendAll docs st =
      { st with
        queue := (chunksRem BATCH_SIZE (st.queue ++ docs)).2,
        futures := st.futures ++ (chunksRem BATCH_SIZE (st.queue ++ docs)).1 } := by
  induction docs generalizing st with
  | nil =>
    rw [sendAll]
    rw [List.append_nil, chunksRem_of_lt _ _ h]
    cases st
    simp
  | cons d ds ih =>
    obtain ⟨hn, ix, a, q, f⟩ := st
    simp only at h
    rw [sendAll]
    by_cases hlen : (q ++ [d]).length ≥ BATCH_SIZE
    · have hexact : (q ++ [d]).length = BATCH_SIZE := by
        simp only [List.length_append, List.length_singleton] at hlen ⊢
        omega
      have hsend :
          (ElasticsearchOutput.send ⟨hn, ix, a, q, f⟩ d).2 =
            ⟨hn, ix, a, [], f ++ [q ++ [d]]⟩ := by
        simp only [ElasticsearchOutput.send, ElasticsearchOutput.flush]
        rw [if_pos hlen]
        simp only [ge_iff_le, hexact, le_refl, if_true]
        rw [← hexact, List.drop_length, List.take_length]
      rw [hsend, ih _ (by simp [BATCH_SIZE])]
      have hsplit : q ++ d :: ds = (q ++ [d]) ++ ds := by simp
      have htake : List.take BATCH_SIZE ((q ++ [d]) ++ ds) = q ++ [d] := by
        rw [← hexact]
        exact List.take_left _ _
      have hdrop : List.drop BATCH_SIZE ((q ++ [d]) ++ ds) = ds := by
        rw [← hexact]
        exact List.drop_left _ _
      rw [hsplit, chunksRem_of_le BATCH_SIZE ((q ++ [d]) ++ ds) (by simp [BATCH_SIZE])
        (by simp only [List.length_append, List.length_append] at hexact ⊢; omega)]
      rw [htake, hdrop]
      simp
    · have hsend :
          (ElasticsearchOutput.send ⟨hn, ix, a, q, f⟩ d).2 =
            ⟨hn, ix, a, q ++ [d], f⟩ := by
        simp only [ElasticsearchOutput.send]
        rw [if_neg hlen]
      rw [hsend, ih _ (by simp only at hlen ⊢; omega)]
      simp

theorem update_op_of_valid (d : Json) (h : validUpdateDoc d = true) :
    update_operation_from_doc d = Except.ok (specUpdateOp d) := by
  cases d with
  | obj m =>
    rcases hm : mapRemove "_id" m with _ | ⟨v, rest⟩
    · simp [validUpdateDoc, hm] at h
    · cases v with
      | str id =>
        simp [update_operation_from_doc, extract_update_id, specUpdateOp, hm]
      | null => simp [validUpdateDoc, hm] at h
      | bool b => simp [validUpdateDoc, hm] at h
      | num n => simp [validUpdateDoc, hm] at h
      | arr xs => simp [validUpdateDoc, hm] at h
      | obj m2 => simp [validUpdateDoc, hm] at h
  | null => simp [validUpdateDoc] at h
  | bool b => simp [validUpdateDoc] at h
  | num n => simp [validUpdateDoc] at h
  | str s => simp [validUpdateDoc] at h
  | arr xs => simp [validUpdateDoc] at h

theorem update_op_isOk (d : Json) :
    (update_operation_from_doc d).isOk = validUpdateDoc d := by
  cases d with
  | obj m =>
    rcases hm : mapRemove "_id" m with _ | ⟨v, rest⟩
    · simp [update_operation_from_doc, extract_update_id, validUpdateDoc, hm, Except.isOk,
        Except.toBool]
    · cases v <;>
        simp [update_operation_from_doc, extract_update_id, validUpdateDoc, hm, Except.isOk,
          Except.toBool]
  | null =>
    simp [update_operation_from_doc, extract_update_id, validUpdateDoc, Except.isOk, Except.toBool]
  | bool b =>
    simp [update_operation_from_doc, extract_update_id, validUpdateDoc, Except.isOk, Except.toBool]
  | num n =>
    simp [update_operation_from_doc, extract_update_id, validUpdateDoc, Except.isOk, Except.toBool]
  | str s =>
    simp [update_operation_from_doc, extract_update_id, validUpdateDoc, Except.isOk, Except.toBool]
  | arr xs =>
    simp [update_operation_from_doc, extract_update_id, validUpdateDoc, Except.isOk, Except.toBool]

/-- C2: for an Update-mode batch in which every document is a JSON object
carrying a string "_id" field, encoding succeeds and produces exactly one
operation per document in input order (it is the elementwise map of the
batch), each operation being an action header carrying the extracted
identifier paired with a source line wrapping the remaining fields (the
"_id" entry removed) under a "doc" key, as `specUpdateOp` states. -/
theorem c2_update_encoding (docs : List Json)
    (h : ∀ d ∈ docs, validUpdateDoc d = true) :
    build_bulk_operations BulkAction.Update docs = Except.ok (docs.map specUpdateOp) := by
  induction docs with
  | nil => rfl
  | cons d ds ih =>
    have hd := h d (List.mem_cons_self d ds)
    have hds : ∀ x ∈ ds, validUpdateDoc x = true :=
      fun x hx => h x (List.mem_cons_of_mem d hx)
    simp only [build_bulk_operations, encode_doc, update_op_of_valid d hd, ih hds, List.map_cons]

/-- C2 witness: the repository's own unit-test document: an Update batch of
one document with a string "_id" and one other field encodes to the single
expected update operation. -/
theorem c2_update_encoding_witness :
    build_bulk_operations BulkAction.Update
        [Json.obj [("_id", Json.str "1"), ("message", Json.str "hello")]] =
      Except.ok
        [BulkOperation.update "1" (Json.obj [("doc", Json.obj [("message", Json.str "hello")])])] := by
  rw [c2_update_encoding _ (by decide)]
  rfl

/-- C3: encoding a batch under Update mode succeeds exactly when every
document is a JSON object carrying a string "_id" field; equivalently it
returns an `EncodingError` iff some document is not an object, lacks the
"_id" field, or has a non-string "_id" (the three failure branches of
`extract_update_id`, which are exactly the negation of `validUpdateDoc` by
the second conjunct). When it fails, the `Except.error` result carries no
operation list at all, so no operations are produced for any document of
the batch (fail-fast, not partial). -/
theorem c3_update_fail_fast (docs : List Json) :
    ((build_bulk_operations BulkAction.Update docs).isOk = docs.all validUpdateDoc) ∧
    (∀ d : Json, validUpdateDoc d = true ↔
      ∃ m id rest, d = Json.obj m ∧ mapRemove "_id" m = some (Json.str id, rest)) := by
  constructor
  · induction docs with
    | nil => rfl
    | cons d ds ih =>
      simp only [build_bulk_operations, encode_doc, List.all_cons]
      rcases he : update_operation_from_doc d with e | op
      · have : validUpdateDoc d = false := by
          rw [← update_op_isOk, he]
          rfl
        simp [this, Except.isOk, Except.toBool]
      · have hv : validUpdateDoc d = true := by
          rw [← update_op_isOk, he]
          rfl
        rcases hr : build_bulk_operations BulkAction.Update ds with e2 | ops
        · rw [hr] at ih
          simp [hv, ← ih, Except.isOk, Except.toBool]
        · rw [hr] at ih
          simp [hv, ← ih, Except.isOk, Except.toBool]
  · intro d
    constructor
    · intro h
      cases d with
      | obj m =>
        rcases hm : mapRemove "_id" m with _ | ⟨v, rest⟩
        · simp [validUpdateDoc, hm] at h
        · cases v with
          | str id => exact ⟨m, id, rest, rfl, hm⟩
          | null => simp [validUpdateDoc, hm] at h
          | bool b => simp [validUpdateDoc, hm] at h
          | num n => simp [validUpdateDoc, hm] at h
          | arr xs => simp [validUpdateDoc, hm] at h
          | obj m2 => simp [validUpdateDoc, hm] at h
      | null => simp [validUpdateDoc] at h
      | bool b => simp [validUpdateDoc] at h
      | num n => simp [validUpdateDoc] at h
      | str s => simp [validUpdateDoc] at h
      | arr xs => simp [validUpdateDoc] at h
    · rintro ⟨m, id, rest, rfl, hm⟩
      simp [validUpdateDoc, hm]

/-- C6: `success_count()` is the number of per-item results with an
accepting status, where a "create" item is accepted only with status 201
and an "index" item with status 200 or 201; a response with no items field
counts 0. The accepting predicate is restated inline from the claim's
words. -/
theorem c6_success_count (r : bulk_response.BulkResponse) :
    (r.items = none → r.success_count = 0) ∧
    (∀ items, r.items = some items →
      r.success_count = items.countP (fun item =>
        match item with
        | bulk_response.BulkAction.Create create => create.status == 201
        | bulk_response.BulkAction.Index index =>
            index.status == 200 || index.status == 201)) := by
  obtain ⟨e, errs, its⟩ := r
  constructor
  · intro h
    simp only at h
    simp [bulk_response.BulkResponse.success_count, h]
  · intro items h
    simp only at h
    rw [List.countP_eq_length_filter]
    simp only [bulk_response.BulkResponse.success_count, h]
    rfl

/-- C6 witness: a response of three items (a created create, a rejected
index, an ok index) counts 2 successes, and a response with no items field
counts 0; both via `c6_success_count` at concrete inputs. -/
theorem c6_success_count_witness :
    (bulk_response.BulkResponse.mk none (some true)
        (some [bulk_response.BulkAction.Create ⟨"idx", "1", 201, none⟩,
          bulk_response.BulkAction.Index ⟨"idx", "2", 400, some ("t", "r")⟩,
          bulk_response.BulkAction.Index ⟨"idx", "3", 200, none⟩])).success_count = 2 ∧
    (bulk_response.BulkResponse.mk none (some false) none).success_count = 0 := by
  constructor
  · rw [(c6_success_count _).2 _ rfl]
    decide
  · exact (c6_success_count _).1 rfl

theorem stepBackoff_pow (k : Nat) : stepBackoff (min (2 ^ k) 30) = min (2 ^ (k + 1)) 30 := by
  by_cases hk : k ≤ 4
  · interval_cases k <;> decide
  · have h1 : (2 : Nat) ^ 5 ≤ 2 ^ k := Nat.pow_le_pow_right (by norm_num) (by omega)
    have h2 : (2 : Nat) ^ k ≤ 2 ^ (k + 1) := Nat.pow_le_pow_right (by norm_num) (by omega)
    have e1 : min ((2 : Nat) ^ k) 30 = 30 := Nat.min_eq_right (by norm_num at h1; omega)
    have e2 : min ((2 : Nat) ^ (k + 1)) 30 = 30 := Nat.min_eq_right (by norm_num at h1; omega)
    rw [e1, e2]
    decide

theorem bulkTaskLoop_429_block (n : Nat) :
    ∀ (k : Nat) (bodies : Nat → bulk_response.BulkResponse) (rest : List AttemptOutcome),
    bulkTaskLoop (block429 n bodies ++ rest) (min (2 ^ k) 30) =
      (bulkTaskLoop rest (min (2 ^ (k + n)) 30)).map
        (fun r => (r.1, r.2.1 + n,
          ((List.range n).map (fun i => min (2 ^ (k + i)) 30)) ++ r.2.2)) := by
  induction n with
  | zero =>
    intro k bodies rest
    simp only [block429, List.range_zero, List.map_nil, List.nil_append, Nat.add_zero]
    rcases h : bulkTaskLoop rest (min (2 ^ k) 30) with _ | ⟨o, c, s⟩ <;> simp [h]
  | succ m ih =>
    intro k bodies rest
    rw [block429, List.range_succ_eq_map]
    simp only [List.map_cons, List.map_map, List.cons_append]
    rw [bulkTaskLoop]
    rw [if_neg (by omega), if_pos rfl, stepBackoff_pow k]
    have htail :
        (List.range m).map ((fun i => AttemptOutcome.response 429 (bodies i)) ∘ Nat.succ) ++ rest =
          block429 m (fun i => bodies (i + 1)) ++ rest := by
      simp only [block429]
      congr 1
    rw [htail, ih (k + 1) (fun i => bodies (i + 1)) rest]
    have hexp : k + 1 + m = k + (m + 1) := by omega
    rw [hexp]
    rcases h : bulkTaskLoop rest (min (2 ^ (k + (m + 1))) 30) with _ | ⟨o, c, s⟩
    · rfl
    · simp [Nat.add_assoc, Nat.add_comm, Nat.add_left_comm]

/-- C4: when a bulk HTTP exchange returns status 400, the bulk task
terminates at once with `Ok(0)` — a success contribution of exactly 0 —
having made exactly one HTTP exchange, with no retry and no backoff sleep;
the result does not depend on any further available responses. -/
theorem c4_bad_request (action : BulkAction) (docs : List Json) (ops : List BulkOperation)
    (henc : build_bulk_operations action docs = Except.ok ops)
    (body : bulk_response.BulkResponse) (rest : List AttemptOutcome) :
    runBulkTask action docs (AttemptOutcome.response 400 body :: rest) =
      some (TaskOutcome.ok 0, 1, []) := by
  simp only [runBulkTask, henc]
  rw [bulkTaskLoop]
  rw [if_pos rfl]

/-- C4 witness: a task whose batch encodes successfully and whose first
exchange returns 400 ends with count 0 after a single call even though a
further 200 response was available. -/
theorem c4_bad_request_witness :
    runBulkTask BulkAction.Index [] (AttemptOutcome.response 400 ⟨none, none, none⟩ ::
        [AttemptOutcome.response 200 ⟨none, none, none⟩]) =
      some (TaskOutcome.ok 0, 1, []) :=
  c4_bad_request BulkAction.Index [] [] rfl ⟨none, none, none⟩ _

/-- C5: in the retry loop of one bulk task, after `n` consecutive 429
responses followed by a non-429, non-400 response, the task makes `n + 1`
HTTP exchanges, returns the final body's success count, and the slept
backoff durations are exactly `min (2 ^ i) 30` seconds for the i-th sleep:
they start at 1 second, double after each 429 up to the 30-second cap,
form a non-decreasing sequence, and never exceed 30. With only 429
responses the loop never terminates: retries are unbounded in count. -/
theorem c5_backoff (action : BulkAction) (docs : List Json) (ops : List BulkOperation)
    (henc : build_bulk_operations action docs = Except.ok ops)
    (n : Nat) (bodies : Nat → bulk_response.BulkResponse)
    (s : Nat) (fb : bulk_response.BulkResponse) (hs400 : s ≠ 400) (hs429 : s ≠ 429) :
    runBulkTask action docs (block429 n bodies ++ [AttemptOutcome.response s fb]) =
      some (TaskOutcome.ok fb.success_count, n + 1,
        (List.range n).map (fun i => min (2 ^ i) 30)) ∧
    runBulkTask action docs (block429 n bodies) = none ∧
    List.Chain' (fun a b => a ≤ b) ((List.range n).map (fun i => min (2 ^ i) 30)) ∧
    (∀ x ∈ (List.range n).map (fun i => min (2 ^ i) 30), x ≤ 30) ∧
    (0 < n → ((List.range n).map (fun i => min (2 ^ i) 30)).head? = some 1) := by
  have hblock := bulkTaskLoop_429_block n 0 bodies
  simp only [Nat.zero_add] at hblock
  refine ⟨?_, ?_, ?_, ?_, ?_⟩
  · simp only [runBulkTask, henc]
    have h1 := hblock [AttemptOutcome.response s fb]
    rw [show min ((2 : Nat) ^ 0) 30 = 1 from rfl] at h1
    rw [h1, bulkTaskLoop]
    rw [if_neg hs400, if_neg hs429]
    simp only [Option.map_some', List.append_nil]
    rw [Nat.add_comm 1 n]
  · simp only [runBulkTask, henc]
    have h2 := hblock []
    rw [List.append_nil, show min ((2 : Nat) ^ 0) 30 = 1 from rfl] at h2
    rw [h2]
    rfl
  · have hpair : ((List.range n).map (fun i => min ((2 : Nat) ^ i) 30)).Pairwise
        (fun a b => a ≤ b) := by
      refine List.Pairwise.map _ ?_ (List.pairwise_lt_range n)
      intro a b hab
      exact min_le_min (Nat.pow_le_pow_right (by norm_num) (Nat.le_of_lt hab)) (Nat.le_refl 30)
    exact hpair.chain'
  · intro x hx
    rcases List.mem_map.mp hx with ⟨i, _, rfl⟩
    exact Nat.min_le_right _ _
  · intro hn
    rcases n with _ | m
    · omega
    · rw [List.range_succ_eq_map]
      rfl

/-- C5 witness: six 429 responses then a 200 response give one terminated
task with the final body's count, seven HTTP exchanges, and sleeps
1, 2, 4, 8, 16, 30 seconds — doubling capped at 30. -/
theorem c5_backoff_witness :
    runBulkTask BulkAction.Index []
        (block429 6 (fun _ => ⟨none, none, none⟩) ++
          [AttemptOutcome.response 200 ⟨none, none, none⟩]) =
      some (TaskOutcome.ok 0, 7, [1, 2, 4, 8, 16, 30]) := by
  rw [(c5_backoff BulkAction.Index [] [] rfl 6 (fun _ => ⟨none, none, none⟩) 200
    ⟨none, none, none⟩ (by decide) (by decide)).1]
  rfl

theorem sendAll_init (hostname index : String) (action : BulkAction) (docs : List Json) :
    sendAll docs (initOutput hostname index action) =
      ⟨hostname, index, action, (chunksRem BATCH_SIZE docs).2, (chunksRem BATCH_SIZE docs).1⟩ := by
  have hsa := sendAll_eq docs (initOutput hostname index action) (by simp [initOutput, BATCH_SIZE])
  simpa [initOutput] using hsa

theorem closeBatches_init (hostname index : String) (action : BulkAction) (docs : List Json) :
    closeBatches (sendAll docs (initOutput hostname index action)) =
      (chunksRem BATCH_SIZE docs).1 ++ [(chunksRem BATCH_SIZE docs).2] := by
  rw [sendAll_init]
  have hrem := (chunksRem_spec BATCH_SIZE (by norm_num [BATCH_SIZE]) docs).2.1
  simp only [closeBatches, ElasticsearchOutput.flush]
  rw [if_neg (by omega)]
  simp [List.take_length, List.drop_length]

theorem chunksRem_map_length {α : Type} (n : Nat) (h0 : 0 < n) (l : List α) :
    (chunksRem n l).1.map List.length = List.replicate ((chunksRem n l).1.length) n := by
  have hall := (chunksRem_spec n h0 l).1
  have hx : ∀ x ∈ (chunksRem n l).1.map List.length, x = n := by
    intro x hx
    rcases List.mem_map.mp hx with ⟨b, hb, rfl⟩
    exact hall b hb
  simpa [List.length_map] using List.eq_replicate_of_mem hx

theorem chunksRem_count {α : Type} (n : Nat) (h0 : 0 < n) (l : List α) :
    (chunksRem n l).2.length = l.length % n ∧
    (chunksRem n l).1.length = l.length / n := by
  obtain ⟨hall, hrem, hjoin⟩ := chunksRem_spec n h0 l
  have hlen := congrArg List.length hjoin
  simp only [List.length_append, List.length_flatten, chunksRem_map_length n h0 l,
    List.sum_replicate, smul_eq_mul] at hlen
  constructor
  · rw [← hlen, Nat.mul_comm, Nat.mul_add_mod]
    exact (Nat.mod_eq_of_lt hrem).symm
  · rw [← hlen, Nat.mul_comm, Nat.mul_add_div h0, Nat.div_eq_of_lt hrem, Nat.add_zero]

/-- C8: the pending queue never holds `BATCH_SIZE` (5,000) or more
documents once a submission returns; the batches dispatched over a whole
run are precisely the greedy full chunks of exactly 5,000 documents taken
from the front of the submitted sequence in FIFO order, plus the final
shutdown flush of whatever remains (fewer than 5,000, possibly 0);
concatenating the dispatched batches recovers the submitted documents in
order; and submitting 12,000 documents yields exactly three batches of
5,000, 5,000 and 2,000 documents. -/
theorem c8_batching (hostname index : String) (action : BulkAction) (docs : List Json) :
    closeBatches (sendAll docs (initOutput hostname index action)) =
      (chunksRem BATCH_SIZE docs).1 ++ [(chunksRem BATCH_SIZE docs).2] ∧
    (∀ b ∈ (chunksRem BATCH_SIZE docs).1, b.length = BATCH_SIZE) ∧
    (chunksRem BATCH_SIZE docs).2.length < BATCH_SIZE ∧
    (closeBatches (sendAll docs (initOutput hostname index action))).flatten = docs ∧
    (sendAll docs (initOutput hostname index action)).queue.length < BATCH_SIZE ∧
    (closeBatches (sendAll (List.replicate 12000 Json.null)
        (initOutput hostname index action))).map List.length = [5000, 5000, 2000] := by
  have hpos : 0 < BATCH_SIZE := by norm_num [BATCH_SIZE]
  obtain ⟨hall, hrem, hjoin⟩ := chunksRem_spec BATCH_SIZE hpos docs
  refine ⟨closeBatches_init hostname index action docs, hall, hrem, ?_, ?_, ?_⟩
  · rw [closeBatches_init]
    simp only [List.flatten_append, List.flatten_cons, List.flatten_nil, List.append_nil]
    exact hjoin
  · rw [sendAll_init]
    exact hrem
  · rw [closeBatches_init, List.map_append, chunksRem_map_length BATCH_SIZE hpos,
      (chunksRem_count BATCH_SIZE hpos _).2]
    have hr := (chunksRem_count BATCH_SIZE hpos (List.replicate 12000 Json.null)).1
    simp only [List.length_replicate] at hr ⊢
    rw [List.map_cons, List.map_nil, hr]
    decide

/-- C8 witness: the 12,000-document scenario read off the theorem at a
concrete engine. -/
theorem c8_batching_witness :
    (closeBatches (sendAll (List.replicate 12000 Json.null)
        (initOutput "host" "idx" BulkAction.Create))).map List.length =
      [5000, 5000, 2000] :=
  (c8_batching "host" "idx" BulkAction.Create []).2.2.2.2.2

/-- C9: `send` always returns the count 0 synchronously, whether or not
the push brought the queue to the flush threshold; per-document success is
never reported by `send`. -/
theorem c9_send_returns_zero (st : ElasticsearchOutput) (value : Json) :
    (st.send value).1 = 0 := by
  simp only [ElasticsearchOutput.send]
  split <;> rfl

/-- C10: `close` flushes unconditionally, so when the number of submitted
documents is an exact multiple of `BATCH_SIZE` (including zero) the last
dispatched batch is empty: one additional bulk task is spawned beyond the
threshold-triggered ones, and its batch encodes to a bulk request of zero
operations. -/
theorem c10_empty_final_flush (hostname index : String) (action : BulkAction)
    (docs : List Json) (h : docs.length % BATCH_SIZE = 0) :
    (closeBatches (sendAll docs (initOutput hostname index action))).getLast? = some [] ∧
    (closeBatches (sendAll docs (initOutput hostname index action))).length =
      docs.length / BATCH_SIZE + 1 ∧
    build_bulk_operations action [] = Except.ok [] := by
  have hpos : 0 < BATCH_SIZE := by norm_num [BATCH_SIZE]
  have hcount := chunksRem_count BATCH_SIZE hpos docs
  have hnil : (chunksRem BATCH_SIZE docs).2 = [] := by
    have := hcount.1
    rw [h] at this
    exact List.eq_nil_of_length_eq_zero this
  refine ⟨?_, ?_, rfl⟩
  · rw [closeBatches_init, hnil]
    exact List.getLast?_concat _
  · rw [closeBatches_init]
    simp only [List.length_append, List.length_singleton, hcount.2]

/-- C10 witness: with no documents submitted at all, `close` still
dispatches exactly one task whose batch is empty. -/
theorem c10_empty_final_flush_witness :
    (closeBatches (sendAll [] (initOutput "host" "idx" BulkAction.Create))).getLast? =
      some ([] : List Json) ∧
    (closeBatches (sendAll [] (initOutput "host" "idx" BulkAction.Create))).length = 1 :=
  ⟨(c10_empty_final_flush "host" "idx" BulkAction.Create [] rfl).1,
    (c10_empty_final_flush "host" "idx" BulkAction.Create [] rfl).2.1⟩

theorem close_def (st : ElasticsearchOutput) (outcomes : Nat → List AttemptOutcome) :
    st.close outcomes =
      (taskResults st.action (closeBatches st) outcomes).map
        (fun results => (results.filterMap taskOk).sum) := rfl

theorem filterMap_taskOk_sum (rs : List TaskOutcome) :
    (rs.filterMap taskOk).sum = (rs.map contribution).sum := by
  induction rs with
  | nil => rfl
  | cons r rest ih =>
    cases r with
    | ok c => simp [taskOk, contribution, ih]
    | err => simp [taskOk, contribution, ih]

theorem bulkTaskLoop_le (n : Nat) :
    ∀ (outs : List AttemptOutcome), outs.all (respBounded n) = true →
    ∀ (backoff : Nat) (r : TaskOutcome × Nat × List Nat),
      bulkTaskLoop outs backoff = some r → contribution r.1 ≤ n := by
  intro outs
  induction outs with
  | nil =>
    intro _ b r h
    exact absurd h (by rw [bulkTaskLoop]; simp)
  | cons o rest ih =>
    intro hb b r h
    rw [List.all_cons, Bool.and_eq_true] at hb
    cases o with
    | failed =>
      rw [bulkTaskLoop] at h
      cases h
      simp [contribution]
    | response status body =>
      rw [bulkTaskLoop] at h
      by_cases h400 : status = 400
      · rw [if_pos h400] at h
        cases h
        simp [contribution]
      · rw [if_neg h400] at h
        by_cases h429 : status = 429
        · rw [if_pos h429] at h
          rcases hrec : bulkTaskLoop rest (stepBackoff b) with _ | ⟨o2, c2, s2⟩
          · rw [hrec] at h
            exact absurd h (by simp)
          · rw [hrec] at h
            cases h
            simpa using ih hb.2 (stepBackoff b) (o2, c2, s2) hrec
        · rw [if_neg h429] at h
          cases h
          have hone : respBounded n (AttemptOutcome.response status body) = true := hb.1
          simpa [contribution, respBounded] using hone

theorem runBulkTask_le (action : BulkAction) (b : List Json) (outs : List AttemptOutcome)
    (hb : outs.all (respBounded b.length) = true)
    (r : TaskOutcome × Nat × List Nat) (h : runBulkTask action b outs = some r) :
    contribution r.1 ≤ b.length := by
  rw [runBulkTask] at h
  rcases he : build_bulk_operations action b with e | ops <;> rw [he] at h
  · cases h
    simp [contribution]
  · exact bulkTaskLoop_le b.length outs hb 1 r h

theorem taskResults_le (action : BulkAction) :
    ∀ (bs : List (List Json)) (outcomes : Nat → List AttemptOutcome)
      (rs : List TaskOutcome),
      taskResults action bs outcomes = some rs →
      (∀ i, i < bs.length →
        ((outcomes i).all (respBounded ((bs.getD i []).length))) = true) →
      (rs.map contribution).sum ≤ (bs.map List.length).sum := by
  intro bs
  induction bs with
  | nil =>
    intro outcomes rs h _
    rw [taskResults] at h
    cases h
    simp
  | cons b bs ih =>
    intro outcomes rs h hb
    rw [taskResults] at h
    rcases h1 : (runBulkTask action b (outcomes 0)).map Prod.fst with _ | o <;> rw [h1] at h
    · exact absurd h (by simp)
    · rcases h2 : taskResults action bs (fun i => outcomes (i + 1)) with _ | rest <;>
        rw [h2] at h
      · exact absurd h (by simp)
      · cases h
        simp only [List.map_cons, List.sum_cons]
        have hbound0 : contribution o ≤ b.length := by
          rcases h3 : runBulkTask action b (outcomes 0) with _ | r <;> rw [h3] at h1
          · exact absurd h1 (by simp)
          · have hro : r.1 = o := by simpa using h1
            rw [← hro]
            refine runBulkTask_le action b (outcomes 0) ?_ r h3
            have := hb 0 (by simp)
            simpa using this
        have hrest : (rest.map contribution).sum ≤ (bs.map List.length).sum := by
          refine ih (fun i => outcomes (i + 1)) rest h2 ?_
          intro i hi
          have := hb (i + 1) (by simpa using Nat.succ_lt_succ hi)
          simpa using this
        omega

/-- C1 (amended): whenever `close` terminates with count `c`, `c` equals
the sum over the spawned bulk tasks of the success count each task
reported, a failed task contributing 0; and provided every decoded
response body reports at most as many successes as its task's batch has
documents (a well-behaved store), `c` is at most the number of documents
submitted. Without that bound the inequality fails, as the claim
counterexample shows: `success_count` is read off the response body, which
the code never clamps to the batch size. -/
theorem c1_close_sum (hostname index : String) (action : BulkAction) (docs : List Json)
    (outcomes : Nat → List AttemptOutcome) (c : Nat)
    (hclose : (sendAll docs (initOutput hostname index action)).close outcomes = some c) :
    (∃ rs, taskResults action (closeBatches (sendAll docs (initOutput hostname index action)))
        outcomes = some rs ∧ c = (rs.map contribution).sum) ∧
    ((∀ i, i < (closeBatches (sendAll docs (initOutput hostname index action))).length →
        ((outcomes i).all (respBounded
          (((closeBatches (sendAll docs (initOutput hostname index action))).getD i []).length)))
          = true) →
      c ≤ docs.length) := by
  have hact : (sendAll docs (initOutput hostname index action)).action = action := by
    rw [sendAll_init]
  rw [close_def, hact] at hclose
  rcases htr : taskResults action (closeBatches (sendAll docs (initOutput hostname index action)))
      outcomes with _ | rs <;> rw [htr] at hclose
  · exact absurd hclose (by simp)
  · have hc : (rs.filterMap taskOk).sum = c := by simpa using hclose
    have hcsum : c = (rs.map contribution).sum := by
      rw [← hc]
      exact filterMap_taskOk_sum rs
    refine ⟨⟨rs, by simp [htr], hcsum⟩, ?_⟩
    intro hb
    have hle := taskResults_le action
      (closeBatches (sendAll docs (initOutput hostname index action))) outcomes rs htr hb
    have hflat : (closeBatches (sendAll docs (initOutput hostname index action))).flatten
        = docs := by
      rw [closeBatches_init]
      have hjoin := (chunksRem_spec BATCH_SIZE (by norm_num [BATCH_SIZE]) docs).2.2
      simp only [List.flatten_append, List.flatten_cons, List.flatten_nil, List.append_nil]
      exact hjoin
    have hlen : ((closeBatches (sendAll docs (initOutput hostname index action))).map
        List.length).sum = docs.length := by
      rw [← List.length_flatten, hflat]
    omega

/-- C1 witness: one document, one task, one well-formed 200 response with
a single accepted item: `close` returns 1, which equals the task's
reported count and does not exceed the 1 document submitted. -/
theorem c1_close_sum_witness :
    (sendAll [Json.obj []] (initOutput "h" "i" BulkAction.Index)).close
        (fun _ => [AttemptOutcome.response 200
          ⟨none, some false, some [bulk_response.BulkAction.Index ⟨"i", "1", 201, none⟩]⟩]) =
      some 1 ∧
    1 ≤ ([Json.obj []] : List Json).length := by
  have h1 : (sendAll [Json.obj []] (initOutput "h" "i" BulkAction.Index)).close
      (fun _ => [AttemptOutcome.response 200
        ⟨none, some false, some [bulk_response.BulkAction.Index ⟨"i", "1", 201, none⟩]⟩]) =
      some 1 := rfl
  refine ⟨h1, ?_⟩
  exact (c1_close_sum "h" "i" BulkAction.Index [Json.obj []] _ 1 h1).2 (by decide)

/-- C1 counterexample: the claim's inequality quantifies over every
sequence of HTTP responses, but nothing in the code bounds a response
body's `success_count` by the batch size: submitting one document and
answering the single bulk request with a 200 body listing two accepted
items makes `close` return 2, strictly more than the 1 document
submitted. -/
theorem c1_counterexample :
    (sendAll [Json.obj []] (initOutput "h" "i" BulkAction.Index)).close
        (fun _ => [AttemptOutcome.response 200
          ⟨none, some false, some [bulk_response.BulkAction.Index ⟨"i", "1", 200, none⟩,
            bulk_response.BulkAction.Index ⟨"i", "2", 200, none⟩]⟩]) = some 2 ∧
    ([Json.obj []] : List Json).length = 1 ∧
    ([Json.obj []] : List Json).length < 2 := by
  refine ⟨rfl, rfl, by decide⟩

theorem parseItems_mem_none :
    ∀ (pre post : List Json) (x : Json), bulk_response.parseBulkAction x = none →
      bulk_response.parseItems (pre ++ x :: post) = none := by
  intro pre
  induction pre with
  | nil =>
    intro post x hx
    rw [List.nil_append, bulk_response.parseItems, hx]
  | cons p ps ih =>
    intro post x hx
    rw [List.cons_append, bulk_response.parseItems, ih post x hx]
    rcases bulk_response.parseBulkAction p with _ | a <;> rfl

/-- C7 (amended): a bulk-response item keyed "update" is not accepted by
`success_count` like an "index" item: the response item enum declares only
"create" and "index" variants, so an update-keyed item does not
deserialize at all, a response whose items contain one fails to
deserialize as a whole, and the bulk task's exchange therefore errors (the
`?` on the body decode), terminating the task with `Err` after that single
call — a contribution of 0 to the confirmed count. -/
theorem c7_update_items_unparseable (v : Json) (pre post : List Json) (eflag : Bool) :
    bulk_response.parseBulkAction (Json.obj [("update", v)]) = none ∧
    bulk_response.parseBulkResponse (Json.obj [("errors", Json.bool eflag),
      ("items", Json.arr (pre ++ Json.obj [("update", v)] :: post))]) = none ∧
    (∀ (action : BulkAction) (docs : List Json) (ops : List BulkOperation)
        (rest : List AttemptOutcome),
      build_bulk_operations action docs = Except.ok ops →
      runBulkTask action docs (AttemptOutcome.failed :: rest) =
          some (TaskOutcome.err, 1, []) ∧
        contribution TaskOutcome.err = 0) := by
  have hone : bulk_response.parseBulkAction (Json.obj [("update", v)]) = none := rfl
  refine ⟨hone, ?_, ?_⟩
  · have hitems := parseItems_mem_none pre post (Json.obj [("update", v)]) hone
    simp [bulk_response.parseBulkResponse, jsonLookup, hitems]
  · intro action docs ops rest henc
    constructor
    · simp only [runBulkTask, henc]
      rw [bulkTaskLoop]
    · rfl

/-- C7 witness: at a concrete update-keyed item and a concrete failed
exchange, the amended claim's components evaluate as stated. -/
theorem c7_update_items_unparseable_witness :
    bulk_response.parseBulkAction (Json.obj [("update", Json.str "x")]) = none ∧
    runBulkTask BulkAction.Index [] [AttemptOutcome.failed] =
      some (TaskOutcome.err, 1, []) :=
  ⟨(c7_update_items_unparseable (Json.str "x") [] [] false).1,
    ((c7_update_items_unparseable (Json.str "x") [] [] false).2.2
      BulkAction.Index [] [] [] rfl).1⟩

/-- C7 counterexample: a well-formed bulk response whose single item is
keyed "update" with the ok status 200 does not deserialize at all — so
`success_count` never counts it — while the identical item keyed "index"
deserializes and is counted as 1 success. -/
theorem c7_counterexample :
    bulk_response.parseBulkResponse (Json.obj [("errors", Json.bool false),
      ("items", Json.arr [Json.obj [("update",
        Json.obj [("_index", Json.str "idx"), ("_id", Json.str "1"),
          ("status", Json.num 200)])]])]) = none ∧
    (bulk_response.parseBulkResponse (Json.obj [("errors", Json.bool false),
      ("items", Json.arr [Json.obj [("index",
        Json.obj [("_index", Json.str "idx"), ("_id", Json.str "1"),
          ("status", Json.num 200)])]])])).map
      bulk_response.BulkResponse.success_count = some 1 := by
  exact ⟨rfl, rfl⟩
